import Mathlib

set_option maxRecDepth 8192

/-
Verification of the RK6006 power-supply driver core: the Modbus-RTU frame
codec, the notification reassembler, the transport session state, the
register unit conversions, and the polling coordinator, shallowly embedded
from custom_components/rk6006/rk6006.py and coordinator.py.
-/

namespace RK6006

/-- One LSB-first CRC shift step with polynomial 0xA001, as in the inner
loop of RK6006._calculate_crc16. -/
def crcShift (c : Nat) : Nat :=
  if c % 2 = 1 then (c / 2) ^^^ 0xA001 else c / 2

/-- Per-byte CRC step: XOR the byte into the CRC, then 8 shift steps
(the body of the outer loop of RK6006._calculate_crc16). -/
def crcByte (c b : Nat) : Nat :=
  crcShift^[8] (c ^^^ b)

/-- Modbus CRC-16 over a byte list, initial value 0xFFFF
(RK6006._calculate_crc16). -/
def calculate_crc16 (data : List Nat) : Nat :=
  data.foldl crcByte 0xFFFF

/-- RK6006._build_modbus_command: big-endian header
[slave, function, reg_hi, reg_lo, value_hi, value_lo] followed by the CRC
appended little-endian. Faithful for slave, fn < 256 and reg, value < 2^16
(struct.pack raises outside those ranges). -/
def build_modbus_command (slave fn reg value : Nat) : List Nat :=
  let data := [slave, fn, reg / 256, reg % 256, value / 256, value % 256]
  let crc := calculate_crc16 data
  data ++ [crc % 256, crc / 256]

/-- The read-request frame built by RK6006.read_register (function 0x03). -/
def build_read (slave reg count : Nat) : List Nat :=
  build_modbus_command slave 3 reg count

/-- The write-request frame built by RK6006.write_register (function 0x06). -/
def build_write (slave reg value : Nat) : List Nat :=
  build_modbus_command slave 6 reg value

/-- The big-endian 16-bit words decoded from a read response by
RK6006.read_register: word i is response[3+2i]*256 + response[3+2i+1]. -/
def decodeWords (resp : List Nat) (count : Nat) : List Nat :=
  (List.range count).map fun i => resp.getD (3 + 2 * i) 0 * 256 + resp.getD (3 + 2 * i + 1) 0

/-- The response validation and decoding performed by RK6006.read_register
(lines 237-248): accept iff length >= 5, the byte-count field equals
2*count, and length >= 3 + byte_count + 2; on acceptance decode the words,
otherwise raise (modelled as none). Note the source performs no CRC check. -/
def parse_read_response (resp : List Nat) (count : Nat) : Option (List Nat) :=
  if 5 ≤ resp.length ∧ resp.getD 2 0 = 2 * count ∧ 3 + resp.getD 2 0 + 2 ≤ resp.length then
    some (decodeWords resp count)
  else
    none

/-- Completion test of RK6006._notification_handler on the accumulated
buffer: wait below 5 bytes; for function 0x03 complete once
length >= 5 + buffer[2]; for 0x06 once length >= 8; otherwise complete
immediately. -/
def respComplete (buf : List Nat) : Bool :=
  if 5 ≤ buf.length then
    if buf.getD 1 0 = 3 then decide (5 + buf.getD 2 0 ≤ buf.length)
    else if buf.getD 1 0 = 6 then decide (8 ≤ buf.length)
    else true
  else false

/-- Feed a list of notification fragments into the reassembler buffer,
returning the final buffer and how many notifications ended with the
completion condition true (each such notification calls event.set in
RK6006._notification_handler). -/
def feedAll : List Nat → List (List Nat) → List Nat × Nat
  | buf, [] => (buf, 0)
  | buf, p :: ps =>
    let buf2 := buf ++ p
    let r := feedAll buf2 ps
    (r.1, (if respComplete buf2 then 1 else 0) + r.2)

/-- A well-formed read response frame: function code 0x03 and total length
exactly 5 + byte_count. -/
def validReadFrame (f : List Nat) : Prop :=
  f.getD 1 0 = 3 ∧ f.length = 5 + f.getD 2 0

/-- A well-formed write response frame: function code 0x06 and total length
exactly 8 (the echo of the write command). -/
def validWriteFrame (f : List Nat) : Prop :=
  f.getD 1 0 = 6 ∧ f.length = 8

instance (f : List Nat) : Decidable (validReadFrame f) := by
  unfold validReadFrame; infer_instance

instance (f : List Nat) : Decidable (validWriteFrame f) := by
  unfold validWriteFrame; infer_instance

/-- Python int() truncation toward zero, modelled on exact rationals. -/
def pyInt (q : ℚ) : Int :=
  if 0 ≤ q then ⌊q⌋ else ⌈q⌉

/-- The raw register word written by RK6006.set_voltage: int(voltage * 100). -/
def set_voltage_raw (v : ℚ) : Int :=
  pyInt (v * 100)

/-- The voltage-setpoint decode used by RK6006.get_settings:
raw word divided by 100. -/
def decode_voltage_set (raw : Int) : ℚ :=
  (raw : ℚ) / 100

/-- RK6006.get_temperature on the two raw words read from REG_TEMP_INT:
internal is the raw word; external is absent when the raw word is 65000 or
above (no probe), else the raw word. -/
def get_temperature (intRaw extRaw : Nat) : Nat × Option Nat :=
  (intRaw, if extRaw < 65000 then some extRaw else none)

/-- The shared per-connection state of RK6006 used by _send_command and
_notification_handler: the accumulation buffer response_data and the
completion event response_event. -/
structure Session where
  buf : List Nat
  evt : Bool
deriving DecidableEq

/-- The state effect of entering RK6006._send_command: response_data.clear
and response_event.clear, performed unconditionally with no check that a
previous command is still pending. -/
def startSend (_ : Session) : Session :=
  ⟨[], false⟩

/-- The state effect of one notification in RK6006._notification_handler:
extend the buffer with the fragment and set the event if the accumulated
buffer satisfies the completion test. -/
def notify (s : Session) (frag : List Nat) : Session :=
  let b := s.buf ++ frag
  ⟨b, s.evt || respComplete b⟩

/-- Deliver a list of fragments in arrival order. -/
def notifyAll (s : Session) : List (List Nat) → Session
  | [] => s
  | p :: ps => notifyAll (notify s p) ps

/-- What a task parked in _send_command observes when it wakes: if the
event is set it returns a copy of the accumulated buffer, else it is still
waiting. -/
def awaitResult (s : Session) : Option (List Nat) :=
  if s.evt then some s.buf else none

/- Polling coordinator (coordinator.py). -/

/-- Semantic keys of the Device Snapshot dict assembled by
RK6006Coordinator._async_update_data. -/
inductive SKey where
  | voltage | current | power | voltage_set | current_set
  | temp_internal | temp_external | input_voltage
  | ovp | ocp | protection_status | ovp_triggered | ocp_triggered
  | amp_hours | watt_hours | backlight
  | output_enabled | output_mode | buzzer | power_on_boot | take_out
deriving DecidableEq

/-- All snapshot keys, in the order the dict literal lists them. -/
def allKeys : List SKey :=
  [.voltage, .current, .power, .voltage_set, .current_set,
   .temp_internal, .temp_external, .input_voltage,
   .ovp, .ocp, .protection_status, .ovp_triggered, .ocp_triggered,
   .amp_hours, .watt_hours, .backlight,
   .output_enabled, .output_mode, .buzzer, .power_on_boot, .take_out]

/-- Heterogeneous snapshot values: floats are modelled as exact rationals,
plus booleans, status strings, integers, and the absent external
temperature. -/
inductive SVal where
  | num (q : ℚ)
  | flag (b : Bool)
  | txt (s : String)
  | int (n : Nat)
  | absent
deriving DecidableEq

/-- A Device Snapshot: a finite map from keys to values. A key bound to
none is not present in the underlying Python dict. -/
def Snapshot : Type := SKey → Option SVal

/-- Python truthiness of the snapshot dict: nonempty. -/
def truthy (d : Snapshot) : Bool :=
  allKeys.any fun k => (d k).isSome

/-- The empty dict returned by the failure path when no data exists. -/
def emptySnap : Snapshot := fun _ => none

/-- Coordinator state: the cached snapshot self.data, the consecutive-error
counter, the _connected flag and the _connection_enabled flag. -/
structure CoordState where
  data : Snapshot
  errors : Nat
  connected : Bool
  enabled : Bool

/-- Outcome of one poll cycle body: either the full semantic read cycle
succeeded, producing a value for every snapshot key, or some step
(connect or any register exchange) raised. -/
inductive PollOutcome where
  | success (full : SKey → SVal)
  | failure

/-- What one refresh returns to the caller: a snapshot, or an UpdateFailed
hard failure. -/
inductive UpdateResult where
  | ok (d : Snapshot)
  | hardFailure

/-- One execution of RK6006Coordinator._async_update_data followed by the
framework storing a returned snapshot into self.data. If disabled, raise.
On success: connected, error counter reset to 0, the complete new snapshot
stored and returned. On failure: counter incremented, _connected cleared;
if the counter reached the threshold 3, raise UpdateFailed (self.data
unchanged); otherwise return self.data if truthy else the empty dict. -/
def refresh (s : CoordState) (o : PollOutcome) : CoordState × UpdateResult :=
  if s.enabled = false then
    (s, .hardFailure)
  else
    match o with
    | .success full =>
      let d : Snapshot := fun k => some (full k)
      ({ s with data := d, errors := 0, connected := true }, .ok d)
    | .failure =>
      let e := s.errors + 1
      if 3 ≤ e then
        ({ s with errors := e, connected := false }, .hardFailure)
      else if truthy s.data then
        ({ s with errors := e, connected := false }, .ok s.data)
      else
        ({ s with errors := e, connected := false, data := emptySnap }, .ok emptySnap)

/-- The nine coordinator write operations with their payloads
(coordinator.py async_set_voltage .. async_set_take_out). -/
inductive WriteOp where
  | setVoltage (v : ℚ)
  | setCurrent (c : ℚ)
  | setOvp (v : ℚ)
  | setOcp (c : ℚ)
  | setBacklight (level : Nat)
  | setOutput (state : Bool)
  | setBuzzer (state : Bool)
  | setPowerOnBoot (state : Bool)
  | setTakeOut (state : Bool)

/-- The snapshot key each write operation patches in place. -/
def writeKey : WriteOp → SKey
  | .setVoltage _ => .voltage_set
  | .setCurrent _ => .current_set
  | .setOvp _ => .ovp
  | .setOcp _ => .ocp
  | .setBacklight _ => .backlight
  | .setOutput _ => .output_enabled
  | .setBuzzer _ => .buzzer
  | .setPowerOnBoot _ => .power_on_boot
  | .setTakeOut _ => .take_out

/-- The value each write operation stores under its key. -/
def writeVal : WriteOp → SVal
  | .setVoltage v => .num v
  | .setCurrent c => .num c
  | .setOvp v => .num v
  | .setOcp c => .num c
  | .setBacklight level => .int level
  | .setOutput b => .flag b
  | .setBuzzer b => .flag b
  | .setPowerOnBoot b => .flag b
  | .setTakeOut b => .flag b

/-- The device register and raw word the underlying RK6006 setter writes
for each operation (register addresses and scalings from rk6006.py). -/
def regWrite : WriteOp → Nat × Int
  | .setVoltage v => (0x0008, pyInt (v * 100))
  | .setCurrent c => (0x0009, pyInt (c * 1000))
  | .setOvp v => (0x0052, pyInt (v * 100))
  | .setOcp c => (0x0053, pyInt (c * 1000))
  | .setBacklight level => (0x0048, (level : Int))
  | .setOutput b => (0x0012, if b then 1 else 0)
  | .setBuzzer b => (0x0045, if b then 1 else 0)
  | .setPowerOnBoot b => (0x0044, if b then 1 else 0)
  | .setTakeOut b => (0x0043, if b then 1 else 0)

/-- The coordinator-state effect of one async_set_X call after the
underlying register write succeeded: if self.data is truthy, patch the one
affected key in place and signal an out-of-band update via
async_set_updated_data (the returned Bool); nothing else is touched. -/
def applyWrite (s : CoordState) (op : WriteOp) : CoordState × Bool :=
  if truthy s.data then
    ({ s with data := fun k => if k = writeKey op then some (writeVal op) else s.data k }, true)
  else
    (s, false)

/- Memory slots and backlight (rk6006.py save_memory, recall_memory,
set_backlight), modelled as traces of the I/O operations performed. -/

/-- One register-level I/O operation performed by a driver method. -/
inductive IOOp where
  | readRegs (addr count : Nat)
  | writeReg (addr : Nat) (value : Int)
deriving DecidableEq

/-- RK6006.save_memory with an oracle dev giving the device word returned
for (base address, word index) reads. Out-of-range slots raise ValueError
before any I/O (modelled as an error carrying no trace); otherwise the
missing arguments are filled from get_settings / get_protection_settings
reads and four writes go to base 0x50 + slot*4. -/
def save_memory (dev : Nat → Nat → Nat) (slot : Int)
    (voltage current ovp ocp : Option ℚ) : Except String (List IOOp) :=
  if ¬(0 ≤ slot ∧ slot ≤ 9) then
    .error "Memory slot must be 0-9"
  else
    let readsA := if voltage.isNone || current.isNone then [IOOp.readRegs 0x0008 2] else []
    let v := voltage.getD ((dev 0x0008 0 : ℚ) / 100)
    let c := current.getD ((dev 0x0008 1 : ℚ) / 1000)
    let readsB := if ovp.isNone || ocp.isNone then [IOOp.readRegs 0x0052 2] else []
    let o := ovp.getD ((dev 0x0052 0 : ℚ) / 100)
    let p := ocp.getD ((dev 0x0052 1 : ℚ) / 1000)
    let base := 0x50 + slot.toNat * 4
    .ok (readsA ++ readsB ++
      [IOOp.writeReg base (pyInt (v * 100)),
       IOOp.writeReg (base + 1) (pyInt (c * 1000)),
       IOOp.writeReg (base + 2) (pyInt (o * 100)),
       IOOp.writeReg (base + 3) (pyInt (p * 1000))])

/-- RK6006.recall_memory with the same device oracle: out-of-range slots
raise before any I/O; otherwise read 4 words at base 0x50 + slot*4, decode
them, and when apply is set write the four setters back. Returns the trace
and the decoded settings. -/
def recall_memory (dev : Nat → Nat → Nat) (slot : Int) (apply : Bool) :
    Except String (List IOOp × (ℚ × ℚ × ℚ × ℚ)) :=
  if ¬(0 ≤ slot ∧ slot ≤ 9) then
    .error "Memory slot must be 0-9"
  else
    let base := 0x50 + slot.toNat * 4
    let v : ℚ := (dev base 0 : ℚ) / 100
    let c : ℚ := (dev base 1 : ℚ) / 1000
    let o : ℚ := (dev base 2 : ℚ) / 100
    let p : ℚ := (dev base 3 : ℚ) / 1000
    let writes :=
      if apply then
        [IOOp.writeReg 0x0008 (pyInt (v * 100)),
         IOOp.writeReg 0x0009 (pyInt (c * 1000)),
         IOOp.writeReg 0x0052 (pyInt (o * 100)),
         IOOp.writeReg 0x0053 (pyInt (p * 1000))]
      else []
    .ok (IOOp.readRegs base 4 :: writes, (v, c, o, p))

/-- RK6006.set_backlight: levels outside 0-5 raise ValueError before any
I/O; otherwise one write to REG_BACKLIGHT (0x48). -/
def set_backlight (level : Int) : Except String (List IOOp) :=
  if ¬(0 ≤ level ∧ level ≤ 5) then
    .error "Backlight level must be 0-5"
  else
    .ok [IOOp.writeReg 0x0048 level]

/- Theorems settling the claims. -/

/-- Claim C5: calculate_crc16 is the standard Modbus CRC-16 (it meets the
standard check value 0x4B37 on the bytes of "123456789", and processes the
input as a fold from 0xFFFF of the per-byte XOR-then-8-LSB-shift step with
polynomial 0xA001), and build_read / build_write produce exactly the
6-byte big-endian header with function 0x03 resp. 0x06 followed by that
CRC appended little-endian. -/
theorem crc_and_frame_layout (slave reg count value : Nat)
    (hs : slave < 256) (hr : reg < 65536) (hc : count < 65536) (hv : value < 65536) :
    calculate_crc16 [0x31, 0x32, 0x33, 0x34, 0x35, 0x36, 0x37, 0x38, 0x39] = 0x4B37
    ∧ (∀ d b, calculate_crc16 (d ++ [b]) = crcByte (calculate_crc16 d) b)
    ∧ build_read slave reg count =
        [slave, 3, reg / 256, reg % 256, count / 256, count % 256] ++
          [calculate_crc16 [slave, 3, reg / 256, reg % 256, count / 256, count % 256] % 256,
           calculate_crc16 [slave, 3, reg / 256, reg % 256, count / 256, count % 256] / 256]
    ∧ build_write slave reg value =
        [slave, 6, reg / 256, reg % 256, value / 256, value % 256] ++
          [calculate_crc16 [slave, 6, reg / 256, reg % 256, value / 256, value % 256] % 256,
           calculate_crc16 [slave, 6, reg / 256, reg % 256, value / 256, value % 256] / 256] := by
  refine ⟨by decide, ?_, rfl, rfl⟩
  intro d b
  simp [calculate_crc16, List.foldl_append]

/-- Witness for crc_and_frame_layout at slave 1, register 0x000A, count 4,
value 1250. -/
theorem crc_and_frame_layout_witness :
    build_read 1 10 4 =
      [1, 3, 0, 10, 0, 4] ++
        [calculate_crc16 [1, 3, 0, 10, 0, 4] % 256, calculate_crc16 [1, 3, 0, 10, 0, 4] / 256] :=
  (crc_and_frame_layout 1 10 4 1250 (by decide) (by decide) (by decide) (by decide)).2.2.1

/-- Claim C6: for a voltage v in [0, 60] (modelled exactly over the
rationals), set_voltage writes the raw word int(v * 100); decoding that
raw word back as raw / 100 (the voltage-setpoint decode of get_settings)
reproduces v within the 0.01 V quantization step, and the raw word fits a
device register (0 .. 6000). -/
theorem set_voltage_roundtrip (v : ℚ) (h0 : 0 ≤ v) (h60 : v ≤ 60) :
    decode_voltage_set (set_voltage_raw v) ≤ v
    ∧ v - decode_voltage_set (set_voltage_raw v) < 1 / 100
    ∧ 0 ≤ set_voltage_raw v ∧ set_voltage_raw v ≤ 6000 := by
  have hx : (0 : ℚ) ≤ v * 100 := by positivity
  have hraw : set_voltage_raw v = ⌊v * 100⌋ := by
    unfold set_voltage_raw pyInt
    exact if_pos hx
  have h1 : ((⌊v * 100⌋ : ℤ) : ℚ) ≤ v * 100 := Int.floor_le _
  have h2 : v * 100 < ((⌊v * 100⌋ : ℤ) : ℚ) + 1 := Int.lt_floor_add_one _
  refine ⟨?_, ?_, ?_, ?_⟩
  · rw [hraw]; unfold decode_voltage_set; linarith
  · rw [hraw]; unfold decode_voltage_set; linarith
  · rw [hraw]; exact Int.floor_nonneg.mpr hx
  · rw [hraw]
    have hle : v * 100 ≤ (6000 : ℚ) := by linarith
    calc ⌊v * 100⌋ ≤ ⌊(6000 : ℚ)⌋ := Int.floor_mono hle
    _ = 6000 := by norm_num

/-- Witness for set_voltage_roundtrip at v = 12.5 V. -/
theorem set_voltage_roundtrip_witness :
    decode_voltage_set (set_voltage_raw (25 / 2)) ≤ (25 / 2 : ℚ)
    ∧ (25 / 2 : ℚ) - decode_voltage_set (set_voltage_raw (25 / 2)) < 1 / 100
    ∧ 0 ≤ set_voltage_raw (25 / 2) ∧ set_voltage_raw (25 / 2) ≤ 6000 :=
  set_voltage_roundtrip (25 / 2) (by norm_num) (by norm_num)

/-- Claim C7: a raw external-temperature word of 65000 or above is surfaced
as absent (no probe), any word below 65000 is surfaced as a present reading
equal to the raw word, and the internal temperature is always the raw
word. -/
theorem temperature_sentinel (i t : Nat) :
    (65000 ≤ t → (get_temperature i t).2 = none)
    ∧ (t < 65000 → (get_temperature i t).2 = some t)
    ∧ (get_temperature i t).1 = i := by
  refine ⟨?_, ?_, rfl⟩
  · intro h
    simp [get_temperature, Nat.not_lt.mpr h]
  · intro h
    simp [get_temperature, h]

/-- Witness for temperature_sentinel at the sentinel boundary 65000 and at
64999. -/
theorem temperature_sentinel_witness :
    (get_temperature 30 65000).2 = none ∧ (get_temperature 30 64999).2 = some 64999 :=
  ⟨(temperature_sentinel 30 65000).1 (by decide),
   (temperature_sentinel 30 64999).2.1 (by decide)⟩

/-- Claim C8: save_memory and recall_memory reject any slot outside 0-9
with a ValueError carrying no I/O trace (rejected before any register read
or write), set_backlight likewise rejects any level outside 0-5, and
in-range arguments are never rejected. -/
theorem slot_level_bounds (dev : Nat → Nat → Nat) (slot level : Int)
    (voltage current ovp ocp : Option ℚ) (apply : Bool) :
    ((slot < 0 ∨ 9 < slot) →
      save_memory dev slot voltage current ovp ocp = .error "Memory slot must be 0-9"
      ∧ recall_memory dev slot apply = .error "Memory slot must be 0-9")
    ∧ ((level < 0 ∨ 5 < level) →
      set_backlight level = .error "Backlight level must be 0-5")
    ∧ (0 ≤ slot → slot ≤ 9 →
      (∃ t, save_memory dev slot voltage current ovp ocp = .ok t)
      ∧ (∃ r, recall_memory dev slot apply = .ok r))
    ∧ (0 ≤ level → level ≤ 5 → ∃ t, set_backlight level = .ok t) := by
  refine ⟨?_, ?_, ?_, ?_⟩
  · intro h
    have hn : ¬(0 ≤ slot ∧ slot ≤ 9) := by omega
    constructor
    · unfold save_memory
      rw [if_pos hn]
    · unfold recall_memory
      rw [if_pos hn]
  · intro h
    have hn : ¬(0 ≤ level ∧ level ≤ 5) := by omega
    unfold set_backlight
    rw [if_pos hn]
  · intro h1 h2
    have hn : ¬¬(0 ≤ slot ∧ slot ≤ 9) := not_not_intro ⟨h1, h2⟩
    constructor
    · unfold save_memory
      rw [if_neg hn]
      exact ⟨_, rfl⟩
    · unfold recall_memory
      rw [if_neg hn]
      exact ⟨_, rfl⟩
  · intro h1 h2
    have hn : ¬¬(0 ≤ level ∧ level ≤ 5) := not_not_intro ⟨h1, h2⟩
    unfold set_backlight
    rw [if_neg hn]
    exact ⟨_, rfl⟩

/-- Witness for slot_level_bounds: slot 10 and level 6 are rejected, slot
-1 is rejected for recall, slot 3 and level 2 are accepted. -/
theorem slot_level_bounds_witness :
    save_memory (fun _ _ => 0) 10 none none none none = .error "Memory slot must be 0-9"
    ∧ recall_memory (fun _ _ => 0) (-1) true = .error "Memory slot must be 0-9"
    ∧ set_backlight 6 = .error "Backlight level must be 0-5"
    ∧ (∃ t, save_memory (fun _ _ => 0) 3 none none none none = .ok t)
    ∧ (∃ t, set_backlight 2 = .ok t) :=
  ⟨((slot_level_bounds (fun _ _ => 0) 10 6 none none none none true).1 (by norm_num)).1,
   ((slot_level_bounds (fun _ _ => 0) (-1) 6 none none none none true).1 (by norm_num)).2,
   (slot_level_bounds (fun _ _ => 0) 10 6 none none none none true).2.1 (by norm_num),
   ((slot_level_bounds (fun _ _ => 0) 3 2 none none none none true).2.2.1 (by norm_num) (by norm_num)).1,
   (slot_level_bounds (fun _ _ => 0) 3 2 none none none none true).2.2.2 (by norm_num) (by norm_num)⟩

/-- Claim C9: when a snapshot exists (truthy dict), every coordinator write
operation patches exactly its own snapshot key with the written value,
leaves every other key unchanged, signals an out-of-band update
immediately, and does not modify the consecutive-error counter, the
connection flag, or the enabled flag. -/
theorem write_patches_one_key (s : CoordState) (op : WriteOp)
    (h : truthy s.data = true) :
    (applyWrite s op).2 = true
    ∧ (applyWrite s op).1.data (writeKey op) = some (writeVal op)
    ∧ (∀ k, k ≠ writeKey op → (applyWrite s op).1.data k = s.data k)
    ∧ (applyWrite s op).1.errors = s.errors
    ∧ (applyWrite s op).1.connected = s.connected
    ∧ (applyWrite s op).1.enabled = s.enabled := by
  unfold applyWrite
  rw [if_pos h]
  refine ⟨rfl, by simp, ?_, rfl, rfl, rfl⟩
  intro k hk
  simp [hk]

/-- Witness for write_patches_one_key: a full snapshot patched by
set_voltage 12.5 updates voltage_set, keeps the ovp entry, signals, and
keeps the error counter. -/
theorem write_patches_one_key_witness :
    (applyWrite ⟨fun _ => some (SVal.flag true), 0, true, true⟩
        (WriteOp.setVoltage (25 / 2))).2 = true
    ∧ (applyWrite ⟨fun _ => some (SVal.flag true), 0, true, true⟩
        (WriteOp.setVoltage (25 / 2))).1.data SKey.voltage_set = some (SVal.num (25 / 2))
    ∧ (applyWrite ⟨fun _ => some (SVal.flag true), 0, true, true⟩
        (WriteOp.setVoltage (25 / 2))).1.data SKey.ovp = some (SVal.flag true)
    ∧ (applyWrite ⟨fun _ => some (SVal.flag true), 0, true, true⟩
        (WriteOp.setVoltage (25 / 2))).1.errors = 0 :=
  have h := write_patches_one_key ⟨fun _ => some (SVal.flag true), 0, true, true⟩
    (WriteOp.setVoltage (25 / 2)) rfl
  ⟨h.1, h.2.1, (h.2.2.1 SKey.ovp (by decide)).trans rfl, h.2.2.2.1⟩

/-- Claim C10: a failed poll cycle while the consecutive-error counter is
still below the threshold and no previous snapshot exists (empty or absent
dict) returns the empty snapshot with no keys, rather than surfacing a
hard failure or any device data. -/
theorem empty_snapshot_on_early_failure (s : CoordState)
    (he : s.enabled = true) (hc : s.errors + 1 < 3) (hd : truthy s.data = false) :
    (refresh s .failure).2 = .ok emptySnap
    ∧ (refresh s .failure).1.data = emptySnap
    ∧ (∀ k, emptySnap k = none) := by
  have h3 : ¬(3 ≤ s.errors + 1) := by omega
  refine ⟨?_, ?_, fun k => rfl⟩ <;> simp [refresh, he, h3, hd]

/-- Witness for empty_snapshot_on_early_failure: first failure from a
fresh state with no data. -/
theorem empty_snapshot_on_early_failure_witness :
    (refresh ⟨emptySnap, 0, false, true⟩ .failure).2 = .ok emptySnap
    ∧ (refresh ⟨emptySnap, 0, false, true⟩ .failure).1.data = emptySnap :=
  have h := empty_snapshot_on_early_failure ⟨emptySnap, 0, false, true⟩ rfl (by decide) rfl
  ⟨h.1, h.2.1⟩

/-- Claim C2: with the connection enabled, every failed poll cycle
increments the consecutive-error counter and clears the connected flag;
while the incremented counter is below the threshold 3 and a snapshot
exists, the refresh returns that previous snapshot unchanged; starting
from a zero counter the 1st and 2nd consecutive failures return the old
snapshot and exactly the 3rd surfaces a hard failure; and any successful
cycle resets the counter to 0, reconnects, and returns the complete new
snapshot. -/
theorem failure_tolerance (s : CoordState) (full : SKey → SVal)
    (he : s.enabled = true) :
    ((refresh s .failure).1.errors = s.errors + 1
      ∧ (refresh s .failure).1.connected = false)
    ∧ (s.errors + 1 < 3 → truthy s.data = true →
        (refresh s .failure).2 = .ok s.data
        ∧ (refresh s .failure).1.data = s.data)
    ∧ (s.errors = 0 → truthy s.data = true →
        (refresh s .failure).2 = .ok s.data
        ∧ (refresh (refresh s .failure).1 .failure).2 = .ok s.data
        ∧ (refresh (refresh (refresh s .failure).1 .failure).1 .failure).2 = .hardFailure)
    ∧ ((refresh s (.success full)).1.errors = 0
        ∧ (refresh s (.success full)).2 = .ok (fun k => some (full k))
        ∧ (refresh s (.success full)).1.data = (fun k => some (full k))
        ∧ (refresh s (.success full)).1.connected = true) := by
  refine ⟨?_, ?_, ?_, ?_⟩
  · by_cases h3 : 3 ≤ s.errors + 1
    · constructor <;> simp [refresh, he, h3]
    · by_cases hd : truthy s.data = true
      · constructor <;> simp [refresh, he, h3, hd]
      · rw [Bool.not_eq_true] at hd
        constructor <;> simp [refresh, he, h3, hd]
  · intro hc hd
    have h3 : ¬(3 ≤ s.errors + 1) := by omega
    constructor <;> simp [refresh, he, h3, hd]
  · intro h0 hd
    have h31 : ¬(3 ≤ s.errors + 1) := by omega
    have e1 : refresh s .failure =
        ({ s with errors := s.errors + 1, connected := false }, .ok s.data) := by
      simp [refresh, he, h31, hd]
    have h32 : ¬(3 ≤ s.errors + 1 + 1) := by omega
    have e2 : refresh { s with errors := s.errors + 1, connected := false } .failure =
        ({ s with errors := s.errors + 1 + 1, connected := false }, .ok s.data) := by
      simp [refresh, he, h32, hd]
    have h33 : 3 ≤ s.errors + 1 + 1 + 1 := by omega
    have e3 : refresh { s with errors := s.errors + 1 + 1, connected := false } .failure =
        ({ s with errors := s.errors + 1 + 1 + 1, connected := false }, .hardFailure) := by
      simp [refresh, he, h33]
    refine ⟨?_, ?_, ?_⟩
    · rw [e1]
    · rw [e1, e2]
    · rw [e1, e2, e3]
  · refine ⟨?_, ?_, ?_, ?_⟩ <;> simp [refresh, he]

/-- Witness for failure_tolerance: from a fresh connected state holding a
snapshot, two failures return the old snapshot and the third raises. -/
theorem failure_tolerance_witness :
    (refresh ⟨fun _ => some (SVal.flag true), 0, true, true⟩ .failure).2
      = .ok (fun _ => some (SVal.flag true))
    ∧ (refresh (refresh ⟨fun _ => some (SVal.flag true), 0, true, true⟩ .failure).1
        .failure).2 = .ok (fun _ => some (SVal.flag true))
    ∧ (refresh (refresh (refresh ⟨fun _ => some (SVal.flag true), 0, true, true⟩
        .failure).1 .failure).1 .failure).2 = .hardFailure :=
  have h := (failure_tolerance ⟨fun _ => some (SVal.flag true), 0, true, true⟩
    (fun _ => SVal.flag true) rfl).2.2.1 rfl rfl
  ⟨h.1, h.2.1, h.2.2⟩

/- Reassembler lemmas: the completion test is false on every proper
partial accumulation of a well-formed frame and true on the whole frame. -/

/-- The completion test accepts a well-formed read response frame. -/
theorem respComplete_of_valid_read (f : List Nat) (hf : validReadFrame f) :
    respComplete f = true := by
  obtain ⟨h1, h2⟩ := hf
  have h5 : 5 ≤ f.length := by omega
  unfold respComplete
  rw [if_pos h5, h1, if_pos rfl, h2]
  simp

/-- The completion test accepts a well-formed write response frame. -/
theorem respComplete_of_valid_write (f : List Nat) (hf : validWriteFrame f) :
    respComplete f = true := by
  obtain ⟨h1, h2⟩ := hf
  have h5 : 5 ≤ f.length := by omega
  unfold respComplete
  rw [if_pos h5, h1, h2]
  simp

/-- The completion test rejects every strict partial accumulation of a
well-formed read response frame. -/
theorem respComplete_short_of_read (f pre t : List Nat) (hf : validReadFrame f)
    (hsplit : pre ++ t = f) (ht : t ≠ []) : respComplete pre = false := by
  obtain ⟨h1, h2⟩ := hf
  have hlen : pre.length + t.length = f.length := by
    rw [← hsplit]; simp
  have htl : 0 < t.length := List.length_pos.mpr ht
  by_cases h5 : 5 ≤ pre.length
  · have g1 : pre.getD 1 0 = f.getD 1 0 := by
      rw [← hsplit]
      exact (List.getD_append _ _ _ _ (by omega)).symm
    have g2 : pre.getD 2 0 = f.getD 2 0 := by
      rw [← hsplit]
      exact (List.getD_append _ _ _ _ (by omega)).symm
    have hng : ¬(5 + pre.getD 2 0 ≤ pre.length) := by
      rw [g2]; omega
    unfold respComplete
    rw [if_pos h5, g1, h1, if_pos rfl]
    exact decide_eq_false hng
  · unfold respComplete
    rw [if_neg h5]

/-- The completion test rejects every strict partial accumulation of a
well-formed write response frame. -/
theorem respComplete_short_of_write (f pre t : List Nat) (hf : validWriteFrame f)
    (hsplit : pre ++ t = f) (ht : t ≠ []) : respComplete pre = false := by
  obtain ⟨h1, h2⟩ := hf
  have hlen : pre.length + t.length = f.length := by
    rw [← hsplit]; simp
  have htl : 0 < t.length := List.length_pos.mpr ht
  by_cases h5 : 5 ≤ pre.length
  · have g1 : pre.getD 1 0 = f.getD 1 0 := by
      rw [← hsplit]
      exact (List.getD_append _ _ _ _ (by omega)).symm
    have hng : ¬(8 ≤ pre.length) := by omega
    unfold respComplete
    rw [if_pos h5, g1, h1]
    simp [hng]
  · unfold respComplete
    rw [if_neg h5]

/-- Feeding nonempty fragments whose concatenation completes an exact
frame, on top of a partial buffer, reaches the full frame and fires the
completion event exactly once (at the final fragment). -/
theorem feedAll_of_exact (f : List Nat)
    (hshort : ∀ pre t, pre ++ t = f → t ≠ [] → respComplete pre = false)
    (hfull : respComplete f = true) :
    ∀ parts buf, (∀ p ∈ parts, p ≠ []) → buf ++ parts.flatten = f → parts ≠ [] →
      feedAll buf parts = (f, 1) := by
  intro parts
  induction parts with
  | nil =>
    intro buf _ _ hne
    exact absurd rfl hne
  | cons p ps ih =>
    intro buf hne hjoin _
    by_cases hps : ps = []
    · subst hps
      have hbp : buf ++ p = f := by simpa using hjoin
      simp [feedAll, hbp, hfull]
    · have hjoin2 : (buf ++ p) ++ ps.flatten = f := by
        rw [← hjoin, List.flatten_cons, List.append_assoc]
      have hjoinne : ps.flatten ≠ [] := by
        cases ps with
        | nil => exact absurd rfl hps
        | cons q qs =>
          have hq : q ≠ [] := hne q (by simp)
          intro hj
          rw [List.flatten_cons] at hj
          exact hq (List.append_eq_nil.mp hj).1
      have hc : respComplete (buf ++ p) = false := hshort _ _ hjoin2 hjoinne
      have hrec := ih (buf ++ p) (fun x hx => hne x (by simp [hx])) hjoin2 hps
      simp [feedAll, hc, hrec]

/-- Claim C4: for every well-formed response frame (read frames: function
0x03 and length exactly 5 + byte_count; write frames: function 0x06 and
length exactly 8) and every in-order split into nonempty fragments,
feeding the fragments to the reassembler fires exactly one completion
event and accumulates exactly the frame, the same as feeding the whole
frame as a single fragment; completion is the respComplete rule of
_notification_handler (wait below 5 bytes, function 0x03 complete at
5 + buffer[2], 0x06 at 8, anything else immediately). -/
theorem reassembler_fragmentation (f : List Nat) (parts : List (List Nat))
    (hf : validReadFrame f ∨ validWriteFrame f)
    (hne : ∀ p ∈ parts, p ≠ []) (hjoin : parts.flatten = f) :
    feedAll [] parts = (f, 1) ∧ feedAll [] [f] = (f, 1) := by
  have hshort : ∀ pre t, pre ++ t = f → t ≠ [] → respComplete pre = false := by
    rcases hf with h | h
    · exact fun pre t => respComplete_short_of_read f pre t h
    · exact fun pre t => respComplete_short_of_write f pre t h
  have hfull : respComplete f = true := by
    rcases hf with h | h
    · exact respComplete_of_valid_read f h
    · exact respComplete_of_valid_write f h
  have hfne : f ≠ [] := by
    intro hnil
    rcases hf with ⟨_, h2⟩ | ⟨_, h2⟩ <;> rw [hnil] at h2 <;> simp at h2
  have hne2 : parts ≠ [] := by
    intro hp
    rw [hp] at hjoin
    exact hfne (by simpa using hjoin.symm)
  constructor
  · exact feedAll_of_exact f hshort hfull parts [] hne (by simpa using hjoin) hne2
  · refine feedAll_of_exact f hshort hfull [f] [] ?_ (by simp) (by simp)
    intro p hp
    rw [List.mem_singleton] at hp
    rw [hp]
    exact hfne

/-- Witness for reassembler_fragmentation: a 13-byte read response
(byte_count 8) fed one byte at a time yields exactly one completion event
with the full frame accumulated. -/
theorem reassembler_fragmentation_witness :
    feedAll [] [[1], [3], [8], [0], [1], [0], [2], [0], [3], [0], [4], [77], [88]]
      = ([1, 3, 8, 0, 1, 0, 2, 0, 3, 0, 4, 77, 88], 1)
    ∧ feedAll [] [[1, 3, 8, 0, 1, 0, 2, 0, 3, 0, 4, 77, 88]]
      = ([1, 3, 8, 0, 1, 0, 2, 0, 3, 0, 4, 77, 88], 1) :=
  reassembler_fragmentation [1, 3, 8, 0, 1, 0, 2, 0, 3, 0, 4, 77, 88]
    [[1], [3], [8], [0], [1], [0], [2], [0], [3], [0], [4], [77], [88]]
    (Or.inl (by decide)) (by decide) (by decide)

/-- Delivering nonempty fragments that exactly complete a frame into a
freshly cleared session accumulates the frame and sets the event at the
final fragment. -/
theorem notifyAll_of_exact (f : List Nat)
    (hshort : ∀ pre t, pre ++ t = f → t ≠ [] → respComplete pre = false)
    (hfull : respComplete f = true) :
    ∀ parts buf, (∀ p ∈ parts, p ≠ []) → buf ++ parts.flatten = f → parts ≠ [] →
      notifyAll ⟨buf, false⟩ parts = ⟨f, true⟩ := by
  intro parts
  induction parts with
  | nil =>
    intro buf _ _ hne
    exact absurd rfl hne
  | cons p ps ih =>
    intro buf hne hjoin _
    by_cases hps : ps = []
    · subst hps
      have hbp : buf ++ p = f := by simpa using hjoin
      simp [notifyAll, notify, hbp, hfull]
    · have hjoin2 : (buf ++ p) ++ ps.flatten = f := by
        rw [← hjoin, List.flatten_cons, List.append_assoc]
      have hjoinne : ps.flatten ≠ [] := by
        cases ps with
        | nil => exact absurd rfl hps
        | cons q qs =>
          have hq : q ≠ [] := hne q (by simp)
          intro hj
          rw [List.flatten_cons] at hj
          exact hq (List.append_eq_nil.mp hj).1
      have hc : respComplete (buf ++ p) = false := hshort _ _ hjoin2 hjoinne
      have hrec := ih (buf ++ p) (fun x hx => hne x (by simp [hx])) hjoin2 hps
      simp only [notifyAll, notify, hc, Bool.false_or]
      exact hrec

/-- Counterexample to claim C3: _send_command performs no serialization.
Command A starts (clearing the shared buffer and event) and its device
response [1,3,8,0,1,0,2,0,3,0,4,77,88] arrives split as [1,3,8] then the
remaining 10 bytes. If a second command B starts in between, its
unconditional clear discards the first fragment, the remaining bytes alone
set the event, and the task parked for A wakes with some [0,1,...,88],
which is not its response; without the interleaved second send, A receives
exactly its full response. -/
theorem single_in_flight_counterexample :
    validReadFrame [1, 3, 8, 0, 1, 0, 2, 0, 3, 0, 4, 77, 88]
    ∧ [1, 3, 8] ++ [0, 1, 0, 2, 0, 3, 0, 4, 77, 88] = [1, 3, 8, 0, 1, 0, 2, 0, 3, 0, 4, 77, 88]
    ∧ awaitResult (notify (startSend ⟨[], false⟩) [1, 3, 8]) = none
    ∧ awaitResult (notify (startSend (notify (startSend ⟨[], false⟩) [1, 3, 8]))
        [0, 1, 0, 2, 0, 3, 0, 4, 77, 88]) = some [0, 1, 0, 2, 0, 3, 0, 4, 77, 88]
    ∧ some [0, 1, 0, 2, 0, 3, 0, 4, 77, 88] ≠ some [1, 3, 8, 0, 1, 0, 2, 0, 3, 0, 4, 77, 88]
    ∧ awaitResult (notify (notify (startSend ⟨[], false⟩) [1, 3, 8])
        [0, 1, 0, 2, 0, 3, 0, 4, 77, 88]) = some [1, 3, 8, 0, 1, 0, 2, 0, 3, 0, 4, 77, 88] := by
  decide

/-- Claim C3 amended: commands are paired with responses purely by the
shared buffer and event state, which is correct only when calls do not
overlap: a send_and_await whose own response fragments are the only
notifications delivered before it awaits receives exactly its full
response. No mutual exclusion is enforced by _send_command itself, so the
single-in-flight discipline holds only when callers never overlap
commands (see single_in_flight_counterexample for an interleaving that
corrupts the pairing of the first command). -/
theorem sequential_pairing (s : Session) (f : List Nat) (parts : List (List Nat))
    (hf : validReadFrame f ∨ validWriteFrame f)
    (hne : ∀ p ∈ parts, p ≠ []) (hjoin : parts.flatten = f) :
    awaitResult (notifyAll (startSend s) parts) = some f := by
  have hshort : ∀ pre t, pre ++ t = f → t ≠ [] → respComplete pre = false := by
    rcases hf with h | h
    · exact fun pre t => respComplete_short_of_read f pre t h
    · exact fun pre t => respComplete_short_of_write f pre t h
  have hfull : respComplete f = true := by
    rcases hf with h | h
    · exact respComplete_of_valid_read f h
    · exact respComplete_of_valid_write f h
  have hfne : f ≠ [] := by
    intro hnil
    rcases hf with ⟨_, h2⟩ | ⟨_, h2⟩ <;> rw [hnil] at h2 <;> simp at h2
  have hne2 : parts ≠ [] := by
    intro hp
    rw [hp] at hjoin
    exact hfne (by simpa using hjoin.symm)
  have hrun : notifyAll ⟨[], false⟩ parts = ⟨f, true⟩ :=
    notifyAll_of_exact f hshort hfull parts [] hne (by simpa using hjoin) hne2
  show awaitResult (notifyAll ⟨[], false⟩ parts) = some f
  rw [hrun]
  rfl

/-- Witness for sequential_pairing: one command receiving its own 13-byte
read response as a single fragment is paired with exactly that frame. -/
theorem sequential_pairing_witness :
    awaitResult (notifyAll (startSend ⟨[], false⟩)
        [[1, 3, 8, 0, 1, 0, 2, 0, 3, 0, 4, 77, 88]])
      = some [1, 3, 8, 0, 1, 0, 2, 0, 3, 0, 4, 77, 88] :=
  sequential_pairing ⟨[], false⟩ [1, 3, 8, 0, 1, 0, 2, 0, 3, 0, 4, 77, 88]
    [[1, 3, 8, 0, 1, 0, 2, 0, 3, 0, 4, 77, 88]]
    (Or.inl (by decide)) (by decide) (by decide)

/- Read-response parsing lemmas for the CRC claim. -/

/-- The read-response parse result never depends on the trailing two (CRC)
bytes of the response. -/
theorem parse_read_trailing_irrelevant (body : List Nat) (c1 c2 c1p c2p count : Nat) :
    parse_read_response (body ++ [c1, c2]) count
      = parse_read_response (body ++ [c1p, c2p]) count := by
  have hl : ∀ x y : Nat, (body ++ [x, y]).length = body.length + 2 := fun x y => by simp
  by_cases h3 : 3 ≤ body.length
  · have g2 : ∀ x y : Nat, (body ++ [x, y]).getD 2 0 = body.getD 2 0 := fun x y =>
      List.getD_append _ _ _ _ (by omega)
    unfold parse_read_response
    rw [g2, g2, hl, hl]
    by_cases hcond : 5 ≤ body.length + 2 ∧ body.getD 2 0 = 2 * count
        ∧ 3 + body.getD 2 0 + 2 ≤ body.length + 2
    · rw [if_pos hcond, if_pos hcond]
      congr 1
      unfold decodeWords
      apply List.map_congr_left
      intro i hi
      rw [List.mem_range] at hi
      obtain ⟨-, hbc, hrest⟩ := hcond
      have hidx : 3 + 2 * i + 1 < body.length := by omega
      rw [List.getD_append _ _ _ _ (by omega), List.getD_append _ _ _ _ (by omega),
        List.getD_append _ _ _ _ (by omega), List.getD_append _ _ _ _ (by omega)]
    · rw [if_neg hcond, if_neg hcond]
  · have hno : ∀ x y : Nat, ¬(5 ≤ (body ++ [x, y]).length
        ∧ (body ++ [x, y]).getD 2 0 = 2 * count
        ∧ 3 + (body ++ [x, y]).getD 2 0 + 2 ≤ (body ++ [x, y]).length) := by
      intro x y h
      obtain ⟨h5, -, -⟩ := h
      rw [hl x y] at h5
      omega
    unfold parse_read_response
    rw [if_neg (hno c1 c2), if_neg (hno c1p c2p)]

/-- A read response with the expected byte count and any trailing bytes is
accepted and decoded into its big-endian words. -/
theorem parse_read_accepts_wellformed (slave count c1 c2 : Nat) (data : List Nat)
    (hdata : data.length = 2 * count) :
    parse_read_response ([slave, 3, 2 * count] ++ (data ++ [c1, c2])) count
      = some ((List.range count).map fun i =>
          data.getD (2 * i) 0 * 256 + data.getD (2 * i + 1) 0) := by
  have hlen : ([slave, 3, 2 * count] ++ (data ++ [c1, c2])).length = 5 + 2 * count := by
    simp [hdata]
    omega
  have hg2 : ([slave, 3, 2 * count] ++ (data ++ [c1, c2])).getD 2 0 = 2 * count := rfl
  unfold parse_read_response
  rw [hg2, hlen]
  rw [if_pos ⟨by omega, rfl, by omega⟩]
  congr 1
  unfold decodeWords
  apply List.map_congr_left
  intro i hi
  rw [List.mem_range] at hi
  have e1 : ([slave, 3, 2 * count] ++ (data ++ [c1, c2])).getD (3 + 2 * i) 0
      = data.getD (2 * i) 0 := by
    rw [List.getD_append_right _ _ _ _
      (by simp only [List.length_cons, List.length_nil]; omega)]
    have h1 : 3 + 2 * i - ([slave, 3, 2 * count] : List Nat).length = 2 * i := by
      simp only [List.length_cons, List.length_nil]
      omega
    rw [h1, List.getD_append _ _ _ _ (by omega)]
  have e2 : ([slave, 3, 2 * count] ++ (data ++ [c1, c2])).getD (3 + 2 * i + 1) 0
      = data.getD (2 * i + 1) 0 := by
    rw [List.getD_append_right _ _ _ _
      (by simp only [List.length_cons, List.length_nil]; omega)]
    have h1 : 3 + 2 * i + 1 - ([slave, 3, 2 * count] : List Nat).length = 2 * i + 1 := by
      simp only [List.length_cons, List.length_nil]
      omega
    rw [h1, List.getD_append _ _ _ _ (by omega)]
  rw [e1, e2]

/-- Counterexample to claim C1: the read-response parse of read_register
performs no CRC check. The frame [1,3,2,18,52,181,51] is a CRC-valid
response to a one-register read and decodes to [4660]; flipping bit 0 of
its final (CRC high) byte yields [1,3,2,18,52,181,50], whose trailing
little-endian CRC no longer matches the computed CRC, yet the parse still
accepts it and returns the same decoded words instead of rejecting. -/
theorem crc_not_checked_counterexample :
    calculate_crc16 [1, 3, 2, 18, 52] = 51 * 256 + 181
    ∧ parse_read_response [1, 3, 2, 18, 52, 181, 51] 1 = some [4660]
    ∧ List.take 6 [1, 3, 2, 18, 52, 181, 50] = List.take 6 [1, 3, 2, 18, 52, 181, 51]
    ∧ (50 : Nat) = 51 ^^^ 1
    ∧ calculate_crc16 [1, 3, 2, 18, 52] ≠ 50 * 256 + 181
    ∧ parse_read_response [1, 3, 2, 18, 52, 181, 50] 1 = some [4660] := by
  decide

/-- Claim C1 amended: the read-response parse accepts a response after only
the length and byte-count checks and decodes the big-endian words; the CRC
is never verified, so the parse result is invariant under arbitrary
replacement of the trailing two CRC bytes, and in particular a single-bit
corruption confined to the CRC bytes of a previously valid frame is still
accepted with the same decoded words. -/
theorem parse_read_no_crc_amended (body data : List Nat)
    (slave count c1 c2 c1p c2p : Nat) (hdata : data.length = 2 * count) :
    parse_read_response (body ++ [c1, c2]) count
      = parse_read_response (body ++ [c1p, c2p]) count
    ∧ parse_read_response ([slave, 3, 2 * count] ++ (data ++ [c1, c2])) count
      = some ((List.range count).map fun i =>
          data.getD (2 * i) 0 * 256 + data.getD (2 * i + 1) 0) :=
  ⟨parse_read_trailing_irrelevant body c1 c2 c1p c2p count,
   parse_read_accepts_wellformed slave count c1 c2 data hdata⟩

/-- Witness for parse_read_no_crc_amended at the concrete frame of the
counterexample: replacing the CRC bytes does not change the parse, and the
well-formed frame decodes to [4660]. -/
theorem parse_read_no_crc_amended_witness :
    parse_read_response [1, 3, 2, 18, 52, 181, 51] 1
      = parse_read_response [1, 3, 2, 18, 52, 181, 50] 1
    ∧ parse_read_response [1, 3, 2, 18, 52, 181, 51] 1 = some [4660] :=
  have h := parse_read_no_crc_amended [1, 3, 2, 18, 52] [18, 52] 1 1 181 51 181 50 (by decide)
  ⟨h.1, h.2⟩

end RK6006
